/-
Verification of the forest-fires modeling pipeline
(`code/modeling/time_val.py`, `code/modeling/run_model.py`).

`time_val.py` contains two divergent versions of the time-fold
cross-validation iterators, kept apart by merge-conflict markers.  Following
the specification we call the HEAD side "Design A" (test-boundary driven,
with resampling) and the master side "Design B" (split-point driven, no
resampling).  Both are embedded below.

Datetimes are modelled as absolute seconds (an integer); Python's
`datetime` arithmetic is exact arithmetic on absolute time, and the
calendar fields (`.year`, `.month`, `.day`, ...) are recovered with the
standard Gregorian civil-date algorithms (`daysFromCivil` /
`civilFromDays`).  `timedelta(days = k)` is `k * 86400` seconds.
Dataframe rows are `(date_fire, fire_bool)` pairs in a list;
`np.where` over a column becomes the list of positions whose entry
satisfies the predicate.
-/
import Mathlib

set_option autoImplicit false

namespace ForestFires

/-! ### Calendar model -/

/-- Number of days since 1970-01-01 of the civil date `y-m-d`
(standard Gregorian civil-from-days algorithm, floor-division form). -/
def daysFromCivil (y m d : ℤ) : ℤ :=
  let yadj := if m ≤ 2 then y - 1 else y
  let era := yadj / 400
  let yoe := yadj - era * 400
  let mp := (m + 9) % 12
  let doy := (153 * mp + 2) / 5 + d - 1
  let doe := yoe * 365 + yoe / 4 - yoe / 100 + doy
  era * 146097 + doe - 719468

/-- Civil date `(y, m, d)` of a day count since 1970-01-01
(standard Gregorian days-to-civil algorithm, floor-division form). -/
def civilFromDays (z : ℤ) : ℤ × ℤ × ℤ :=
  let zz := z + 719468
  let era := zz / 146097
  let doe := zz - era * 146097
  let yoe := (doe - doe / 1460 + doe / 36524 - doe / 146096) / 365
  let doy := doe - (365 * yoe + yoe / 4 - yoe / 100)
  let mp := (5 * doy + 2) / 153
  let d := doy - (153 * mp + 2) / 5 + 1
  let m := mp + (if mp < 10 then 3 else -9)
  let y := yoe + era * 400
  (if m ≤ 2 then y + 1 else y, m, d)

/-- `datetime(y, m, d, h, mi, s)` as absolute seconds. -/
def mkDT (y m d h mi s : ℤ) : ℤ :=
  daysFromCivil y m d * 86400 + h * 3600 + mi * 60 + s

/-- The `.year` field of a timestamp. -/
def yearOfTs (t : ℤ) : ℤ := (civilFromDays (t / 86400)).1

/-- The `.month` field of a timestamp. -/
def monthOfTs (t : ℤ) : ℤ := (civilFromDays (t / 86400)).2.1

/-- The `.day` field of a timestamp. -/
def dayOfTs (t : ℤ) : ℤ := (civilFromDays (t / 86400)).2.2

/-- The `.hour` field of a timestamp. -/
def hourOfTs (t : ℤ) : ℤ := (t % 86400) / 3600

/-- The `.minute` field of a timestamp. -/
def minuteOfTs (t : ℤ) : ℤ := ((t % 86400) % 3600) / 60

/-- The `.second` field of a timestamp. -/
def secondOfTs (t : ℤ) : ℤ := t % 60

/-- `datetime(t.year, t.month, t.day, 0, 0, 0)`: the timestamp rebuilt at
midnight of its own civil day (used by `_set_init_split_point`). -/
def midnightOf (t : ℤ) : ℤ :=
  daysFromCivil (yearOfTs t) (monthOfTs t) (dayOfTs t) * 86400

/-! ### `np.where` on a column -/

/-- `np.where(pred over column)[0]`: positions (ascending) of the entries of
`l` satisfying `p`. -/
def whereIdx {α : Type} [Inhabited α] (p : α → Bool) (l : List α) : List ℕ :=
  (List.range l.length).filter fun i => p (l.getD i default)

theorem mem_whereIdx {α : Type} [Inhabited α] {p : α → Bool} {l : List α}
    {i : ℕ} : i ∈ whereIdx p l ↔ i < l.length ∧ p (l.getD i default) = true := by
  simp [whereIdx, List.mem_filter, List.mem_range]

/-- Minimum of a dates column (`Series.min`); junk value on the empty list. -/
def minD (l : List ℤ) : ℤ := l.foldl min (l.headD 0)

/-- Maximum of a dates column (`Series.max`); junk value on the empty list. -/
def maxD (l : List ℤ) : ℤ := l.foldl max (l.headD 0)

/-! ### Shared resampling machinery (Design A `BaseTimeFold`)

`np.random.choice` is a random sampler; it is modelled as an explicit
`sampler : List ℕ → ℕ → List ℕ` parameter (candidate pool, sample size),
so that theorems quantify over every possible draw. -/

/-- Row `i` of the dataframe is a fire (`df['fire_bool']` at position `i`;
out-of-range positions read the default `(0, false)`, which no claim
exercises). -/
def isFire (df : List (ℤ × Bool)) (i : ℕ) : Bool := (df.getD i default).2

/-- `np.where(self.df['fire_bool'] == True)[0]`. -/
def fire_indices (df : List (ℤ × Bool)) : List ℕ := whereIdx (fun r => r.2) df

/-- `self.df.ix[train_indices, 'fire_bool'].mean()`: fraction of fire rows
among the given positions; `none` models pandas' `NaN` mean of an empty
selection. -/
def meanFire (df : List (ℤ × Bool)) (idxs : List ℕ) : Option ℚ :=
  if idxs.isEmpty then none
  else some (mkRat (idxs.countP (fun i => isFire df i) : ℤ) idxs.length)

/-- `NaN < c` is `False` in Python; comparison of a possibly-NaN mean. -/
def ltNaN (m : Option ℚ) (c : ℚ) : Bool :=
  match m with
  | some p => decide (p < c)
  | none => false

/-- `np.intersect1d(fire_indices, train_indices)`: the (already sorted,
duplicate-free) fire positions that occur in the training index array. -/
def positive_train_indices (df : List (ℤ × Bool)) (train_indices : List ℕ) :
    List ℕ :=
  (fire_indices df).filter fun i => decide (i ∈ train_indices)

/-- `np.setdiff1d(train_indices, fire_indices)`: the training positions that
are not fire positions, with duplicates removed (`setdiff1d` also sorts;
no claim depends on the order). -/
def negative_train_indices (df : List (ℤ × Bool)) (train_indices : List ℕ) :
    List ℕ :=
  (train_indices.filter fun i => decide (i ∉ fire_indices df)).dedup

/-- `BaseTimeFold._resample` (Design A).  `"simple upsample"` appends a
with-replacement draw from the positive training rows; `"downsample"` keeps
the positive training rows plus an equal-sized without-replacement draw from
the negative training rows.  (For any other method Python falls off the end
and returns `None`; no claim exercises that, and it is modelled by
returning the input unchanged.) -/
def resample (df : List (ℤ × Bool)) (method : String)
    (sampler : List ℕ → ℕ → List ℕ) (train_indices : List ℕ) : List ℕ :=
  if method = "simple upsample" then
    train_indices ++
      sampler (positive_train_indices df train_indices)
        (positive_train_indices df train_indices).length
  else if method = "downsample" then
    positive_train_indices df train_indices ++
      sampler (negative_train_indices df train_indices)
        (positive_train_indices df train_indices).length
  else train_indices

/-- `BaseTimeFold._check_resample` (Design A): resample unless the training
fire fraction is strictly greater than `resample_train_fire_pct` (a `NaN`
mean also falls into the resampling branch, since `NaN > c` is `False`). -/
def check_resample (df : List (ℤ × Bool)) (resample_train_fire_pct : ℚ)
    (method : String) (sampler : List ℕ → ℕ → List ℕ)
    (train_indices : List ℕ) : List ℕ :=
  match meanFire df train_indices with
  | some p =>
      if resample_train_fire_pct < p then train_indices
      else resample df method sampler train_indices
  | none => resample df method sampler train_indices

/-! ### Design A `SequentialTimeFold` -/

/-- State of a Design A `SequentialTimeFold`: the dataframe
(`date_fire`, `fire_bool` columns), `step_size`, `max_folds`, `n_folds`
and the moving `test_date` boundary.  (As written, `SequentialTimeFold`'s
`__init__` passes only four arguments to the six-argument Design A
`BaseTimeFold.__init__`; the resampling fields are never read by this
iterator and are omitted.) -/
structure StateASeq where
  df : List (ℤ × Bool)
  stepSize : ℤ
  maxFolds : ℕ
  nFolds : ℕ
  testDate : ℤ
deriving DecidableEq, Repr

/-- Construction of a Design A sequential fold state:
`test_date = test_set_date - timedelta(days=1)`. -/
def initASeq (df : List (ℤ × Bool)) (step : ℤ) (maxFolds : ℕ)
    (testSetDate : ℤ) : StateASeq :=
  { df := df, stepSize := step, maxFolds := maxFolds, nFolds := 0,
    testDate := testSetDate - 86400 }

/-- `SequentialTimeFold.next` (Design A).  The `while` loop that walks the
test boundary backwards is modelled with explicit fuel: the outer `none`
means the fuel ran out (the source loop has not exited after that many
iterations), `some none` is `StopIteration`, and `some (some ...)` is a
yielded fold together with the successor state. -/
def nextASeq : ℕ → StateASeq → Option (Option ((List ℕ × List ℕ) × StateASeq))
  | 0, _ => none
  | fuel + 1, st =>
      let dates := st.df.map Prod.fst
      let t := st.testDate
      let test_indices := whereIdx (fun d => decide (t ≤ d ∧ d < t + 86400)) dates
      let train_indices := whereIdx (fun d => decide (d < t)) dates
      let st' : StateASeq := { st with testDate := t - st.stepSize }
      if test_indices.length = 0 then nextASeq fuel st'
      else if st.nFolds ≤ st.maxFolds then
        some (some ((train_indices, test_indices), { st' with nFolds := st.nFolds + 1 }))
      else some none

/-! ### Design A `StratifiedTimeFold` -/

/-- State of a Design A `StratifiedTimeFold`. -/
structure StateAStrat where
  df : List (ℤ × Bool)
  stepSize : ℤ
  maxFolds : ℕ
  nFolds : ℕ
  testDate : ℤ
  daysBack : ℤ
  cutoffTrainFirePct : ℚ
  resampleTrainFirePct : ℚ
  resampleMethod : String
  yearsList : List ℤ
deriving DecidableEq, Repr

/-- `StratifiedTimeFold._set_years_list`:
`xrange(year_min, year_max + 1)` over the observed dates. -/
def yearsRange (dates : List ℤ) : List ℤ :=
  let ymin := yearOfTs (minD dates)
  let ymax := yearOfTs (maxD dates)
  (List.range (ymax - ymin + 1).toNat).map fun k => ymin + k

/-- Construction of a Design A stratified fold state. -/
def initAStrat (df : List (ℤ × Bool)) (step : ℤ) (maxFolds : ℕ)
    (testSetDate daysBack : ℤ) (cutoff resamplePct : ℚ)
    (method : String) : StateAStrat :=
  { df := df, stepSize := step, maxFolds := maxFolds, nFolds := 0,
    testDate := testSetDate - 86400, daysBack := daysBack,
    cutoffTrainFirePct := cutoff, resampleTrainFirePct := resamplePct,
    resampleMethod := method, yearsList := yearsRange (df.map Prod.fst) }

/-- `StratifiedTimeFold._get_date_range` (Design A): the `(min, max)` pair of
`pd.date_range(start - days_back days, start)` where `start` is the test
boundary with the year substituted (and, for other years, the day advanced
by one at midnight; Python would raise for a day out of range of the month,
which no claim exercises).  Since the span is a whole number of days the
range maximum is `start` itself; the formula keeps `pd.date_range`'s
day-stepping explicit. -/
def getDateRangeA (st : StateAStrat) (year : ℤ) : ℤ × ℤ :=
  let t := st.testDate
  let start :=
    if year = yearOfTs t then t
    else mkDT year (monthOfTs t) (dayOfTs t + 1) 0 0 0
  let endR := start - st.daysBack * 86400
  (endR, endR + 86400 * ((start - endR) / 86400))

/-- `StratifiedTimeFold._grab_indices` (Design A): training rows inside the
year-substituted window `[range.min, range.max)`. -/
def grabIndicesA (st : StateAStrat) (year : ℤ) : List ℕ :=
  let r := getDateRangeA st year
  whereIdx (fun d => decide (r.1 ≤ d ∧ d < r.2)) (st.df.map Prod.fst)

/-- The `while` loop of `StratifiedTimeFold.next` (Design A), with fuel.
`acc` is the `train_indices` accumulator, which the source initialises
once, before the loop, and therefore keeps across loop iterations. -/
def nextAStratLoop (sampler : List ℕ → ℕ → List ℕ) :
    ℕ → StateAStrat → List ℕ → Option (Option ((List ℕ × List ℕ) × StateAStrat))
  | 0, _, _ => none
  | fuel + 1, st, acc =>
      let dates := st.df.map Prod.fst
      let t := st.testDate
      let test_indices :=
        whereIdx (fun d => decide (t ≤ d ∧ d < t + st.stepSize)) dates
      let train0 := st.yearsList.foldl (fun a y => grabIndicesA st y ++ a) acc
      let train1 :=
        if ltNaN (meanFire st.df train0) st.cutoffTrainFirePct then
          whereIdx (fun d => decide (d < t)) dates
        else train0
      let st' : StateAStrat := { st with testDate := t - st.stepSize }
      if test_indices.length = 0 then nextAStratLoop sampler fuel st' train1
      else
        let train2 :=
          check_resample st.df st.resampleTrainFirePct st.resampleMethod
            sampler train1
        if st.nFolds ≤ st.maxFolds then
          some (some ((train2, test_indices), { st' with nFolds := st.nFolds + 1 }))
        else some none

/-- `StratifiedTimeFold.next` (Design A): run the loop with an empty
`train_indices` accumulator. -/
def nextAStrat (sampler : List ℕ → ℕ → List ℕ) (fuel : ℕ)
    (st : StateAStrat) : Option (Option ((List ℕ × List ℕ) × StateAStrat)) :=
  nextAStratLoop sampler fuel st []

/-! ### Design B `BaseTimeFold` / `SequentialTimeFold` -/

/-- State of a Design B fold iterator: the dates array, `step_size`, the
moving `split_point` (plus the remembered `init_split_point`), the last
`test_indices` (initialised to `np.array((3, 4))`) and `n_folds`. -/
structure StateB where
  dates : List ℤ
  stepSize : ℤ
  splitPoint : ℤ
  initSplitPoint : ℤ
  testIndices : List ℕ
  nFolds : ℕ
deriving DecidableEq, Repr

/-- `BaseTimeFold._set_init_split_point` (Design B):
`min(dates) + step_size` rebuilt at midnight of its own civil day. -/
def setInitSplitPoint (dates : List ℤ) (step : ℤ) : ℤ :=
  midnightOf (minD dates + step)

/-- `BaseTimeFold.__init__` (Design B): with no initial split point the
rounded one is computed, otherwise the given one is used as-is
(a `datetime` is always truthy in Python, so `if not init_split_point`
distinguishes exactly `None`). -/
def initB (dates : List ℤ) (step : ℤ) (initSplit : Option ℤ) : StateB :=
  match initSplit with
  | none =>
      { dates := dates, stepSize := step,
        splitPoint := setInitSplitPoint dates step,
        initSplitPoint := setInitSplitPoint dates step,
        testIndices := [3, 4], nFolds := 0 }
  | some p =>
      { dates := dates, stepSize := step, splitPoint := p,
        initSplitPoint := p, testIndices := [3, 4], nFolds := 0 }

/-- `SequentialTimeFold.next` (Design B): test rows at or after the split
point, train rows strictly before it, then advance the split point;
`StopIteration` (`none`) once the test slice is empty.  (The attribute
updates preceding a `StopIteration` are unobservable afterwards, since the
iterator is single-pass, and are dropped from the `none` result.) -/
def nextBSeq (st : StateB) : Option ((List ℕ × List ℕ) × StateB) :=
  let test_indices := whereIdx (fun d => decide (st.splitPoint ≤ d)) st.dates
  let train_indices := whereIdx (fun d => decide (d < st.splitPoint)) st.dates
  let st' : StateB :=
    { st with testIndices := test_indices,
              splitPoint := st.splitPoint + st.stepSize }
  if test_indices.length ≠ 0 then
    some ((train_indices, test_indices), { st' with nFolds := st.nFolds + 1 })
  else none

/-! ### Design B `StratifiedTimeFold` -/

/-- State of a Design B `StratifiedTimeFold` (the Design B base state plus
the `years_list`). -/
structure StateBStrat where
  dates : List ℤ
  stepSize : ℤ
  splitPoint : ℤ
  initSplitPoint : ℤ
  testIndices : List ℕ
  nFolds : ℕ
  yearsList : List ℤ
deriving DecidableEq, Repr

/-- `StratifiedTimeFold._get_date_range` (Design B): `(min, max)` of
`pd.date_range(start, start + step_size)` where `start` is the split point
with the year substituted. -/
def getDateRangeB (st : StateBStrat) (year : ℤ) : ℤ × ℤ :=
  let sp := st.splitPoint
  let start := mkDT year (monthOfTs sp) (dayOfTs sp)
    (hourOfTs sp) (minuteOfTs sp) (secondOfTs sp)
  let endR := start + st.stepSize
  (start, start + 86400 * ((endR - start) / 86400))

/-- `StratifiedTimeFold._grab_indices` (Design B): split the
year-substituted window `[range.min, range.max)` at the split point into
train (strictly before) and test (at or after). -/
def grabIndicesB (st : StateBStrat) (year : ℤ) : List ℕ × List ℕ :=
  let r := getDateRangeB st year
  let sp := st.splitPoint
  (whereIdx (fun d => decide (r.1 ≤ d ∧ d < r.2 ∧ d < sp)) st.dates,
   whereIdx (fun d => decide (r.1 ≤ d ∧ d < r.2 ∧ sp ≤ d)) st.dates)

/-- `StratifiedTimeFold.next` (Design B): once the previous test slice was
nonempty, accumulate the per-year window splits and advance the split
point; otherwise `StopIteration`. -/
def nextBStrat (st : StateBStrat) : Option ((List ℕ × List ℕ) × StateBStrat) :=
  if st.testIndices.length ≠ 0 then
    let pairs := st.yearsList.foldl
      (fun a y => ((grabIndicesB st y).1 ++ a.1, (grabIndicesB st y).2 ++ a.2))
      ([], [])
    some (pairs,
      { st with nFolds := st.nFolds + 1,
                splitPoint := st.splitPoint + st.stepSize,
                testIndices := pairs.2 })
  else none

/-! ### `run_model.py` -/

/-- An instantiated (unfitted) model, as constructed by `get_model` /
`get_neural_net`: the classifier kind with the constructor arguments that
the source passes. -/
inductive Model where
  | logisticRegression (randomState : ℕ)
  | randomForestClassifier (randomState : ℕ)
  | gradientBoostingClassifier (randomState : ℕ)
  | neuralNet (inputDim hlayer1 hlayer2 : ℕ) (dropoutRate : ℚ) (outputDim : ℕ)
deriving DecidableEq, Repr

/-- `get_neural_net(train_data)`: two 200-node hidden layers with dropout
0.35, a 2-unit softmax output, input width = column count minus one. -/
def get_neural_net (nCols : ℕ) : Model :=
  Model.neuralNet (nCols - 1) 200 200 (35 / 100) 2

/-- `get_model(model_name, train_data)` over the number of columns of the
train table.  Python exceptions are the `Except.error` channel; the
`if`/`elif` chain has no `else`, so an unrecognized name falls off the end
and returns `None` (`Except.ok none`) rather than raising. -/
def get_model (model_name : String) (nCols : ℕ) :
    Except String (Option Model) :=
  Except.ok <|
    if model_name = "logit" then some (Model.logisticRegression 24)
    else if model_name = "random_forest" then some (Model.randomForestClassifier 24)
    else if model_name = "gradient_boosting" then some (Model.gradientBoostingClassifier 24)
    else if model_name = "neural_net" then some (get_neural_net nCols)
    else none

/-- The hard-prediction step of `predict_with_model` on the neural-network
path: `model.predict(features.values)[:, 1] > 0.50` applied to the
predicted probability matrix (one row per observation, column 1 the
positive class). -/
def nn_hard_predictions (probRows : List (List ℚ)) : List Bool :=
  probRows.map fun row => decide (mkRat 1 2 < row.getD 1 0)

/-- A hyperparameter grid value: sklearn grids mix strings and numbers. -/
inductive GParam where
  | str (s : String)
  | num (q : ℚ)
deriving DecidableEq, Repr

/-- `get_grid_params(model_name)`; as in `get_model`, an unrecognized name
returns `None`. -/
def get_grid_params (model_name : String) :
    Option (List (String × List GParam)) :=
  if model_name = "logit" then
    some [("penalty", [GParam.str "l2", GParam.str "l1"]),
          ("C", [GParam.num (1 / 10), GParam.num (1 / 2), GParam.num 1,
                 GParam.num 2, GParam.num 10])]
  else if model_name = "random_forest" then
    some [("n_estimators", [GParam.num 500]),
          ("max_depth", [GParam.num 3, GParam.num 5, GParam.num 10,
                         GParam.num 20])]
  else if model_name = "gradient_boosting" then
    some [("learning_rate", [GParam.num (1 / 100), GParam.num (5 / 100),
                             GParam.num (1 / 10)])]
  else none

/-- Modelled from the spec (section 4.7, testable property 7): the exact
grid the specification lists for `logit`. -/
def specGridLogit : List (String × List GParam) :=
  [("penalty", [GParam.str "l2", GParam.str "l1"]),
   ("C", [GParam.num (1 / 10), GParam.num (1 / 2), GParam.num 1,
          GParam.num 2, GParam.num 10])]

/-- Modelled from the spec: the exact grid listed for `random_forest`. -/
def specGridRandomForest : List (String × List GParam) :=
  [("n_estimators", [GParam.num 500]),
   ("max_depth", [GParam.num 3, GParam.num 5, GParam.num 10, GParam.num 20])]

/-- Modelled from the spec: the exact grid listed for `gradient_boosting`. -/
def specGridGradientBoosting : List (String × List GParam) :=
  [("learning_rate", [GParam.num (1 / 100), GParam.num (5 / 100),
                      GParam.num (1 / 10)])]

/-! ### `log_results` -/

/-- The text file system, as a map from path to current content; a file
that does not exist yet reads as the empty string (created on first append,
mode `a+`). -/
def FileSys : Type := String → String

/-- `'./modeling/logs/' + model_name + '.txt'`. -/
def logFilePath (model_name : String) : String :=
  "./modeling/logs/" ++ model_name ++ ".txt"

/-- `'-' * 100`. -/
def dashLine : String := String.mk (List.replicate 100 '-')

/-- The text block one `log_results` call writes: timestamp, dash
separator, model name, parameter text, comma-joined feature columns and
score text (each `'\n' * 2` of the source is a double newline). -/
def logEntry (st model_name params : String) (cols : List String)
    (scores : String) : String :=
  st ++ "\n" ++ dashLine ++ "\n" ++
  "Model Run: " ++ model_name ++ "\n\n" ++
  "Params: " ++ params ++ "\n\n" ++
  "Features: " ++ String.intercalate ", " cols ++ "\n\n" ++
  "Scores: " ++ scores ++ "\n\n"

/-- `log_results`: open the per-model log in append mode and write one
entry; every other file is untouched. -/
def log_results (fs : FileSys) (model_name st params : String)
    (cols : List String) (scores : String) : FileSys :=
  fun path =>
    if path = logFilePath model_name then
      fs path ++ logEntry st model_name params cols scores
    else fs path

/-! ### Concrete inputs used by witnesses -/

/-- A 1010-row feature table whose first 10 rows are fires (testable
property 6 of the spec: 10 positive, 1000 negative training rows). -/
def dfC5 : List (ℤ × Bool) := (List.range 1010).map fun i => ((0 : ℤ), decide (i < 10))

/-- The full index set of `dfC5` as a training set. -/
def trainC5 : List ℕ := List.range 1010

/-- A concrete admissible draw for `np.random.choice(pool, k,
replace=False)`: the first `k` elements of the pool. -/
def takeSampler : List ℕ → ℕ → List ℕ := fun pool k => pool.take k

/-! ## Generic lemmas about the embedding -/

theorem mem_fire_indices {df : List (ℤ × Bool)} {i : ℕ} :
    i ∈ fire_indices df ↔ i < df.length ∧ isFire df i = true :=
  mem_whereIdx

theorem isFire_false_of_not_mem_fire_indices {df : List (ℤ × Bool)} {i : ℕ}
    (h : i ∉ fire_indices df) : isFire df i = false := by
  by_cases hlen : i < df.length
  · by_cases hf : isFire df i = true
    · exact absurd (mem_fire_indices.mpr ⟨hlen, hf⟩) h
    · simpa using hf
  · unfold isFire
    rw [List.getD_eq_default _ default (Nat.le_of_not_lt hlen)]
    rfl

theorem isFire_of_mem_positive {df : List (ℤ × Bool)} {train : List ℕ} {i : ℕ}
    (h : i ∈ positive_train_indices df train) : isFire df i = true :=
  (mem_fire_indices.mp (List.mem_filter.mp h).1).2

theorem isFire_false_of_mem_negative {df : List (ℤ × Bool)} {train : List ℕ}
    {i : ℕ} (h : i ∈ negative_train_indices df train) : isFire df i = false := by
  have h1 := List.mem_dedup.mp h
  have h2 := (List.mem_filter.mp h1).2
  exact isFire_false_of_not_mem_fire_indices (by simpa using h2)

theorem getD_map_range {β : Type} [Inhabited β] (f : ℕ → β) {n i : ℕ}
    (hi : i < n) : ((List.range n).map f).getD i default = f i := by
  rw [List.getD_eq_getElem?_getD, List.getElem?_map, List.getElem?_range hi]
  rfl

theorem filter_range_lt (k m : ℕ) :
    (List.range (k + m)).filter (fun i => decide (i < k)) = List.range k := by
  induction m with
  | zero =>
      exact List.filter_eq_self.mpr fun a ha => by
        simpa using List.mem_range.mp ha
  | succ m ih =>
      rw [Nat.add_succ, List.range_succ, List.filter_append, ih]
      simp

theorem filter_range_not_lt (k m : ℕ) :
    (List.range (k + m)).filter (fun i => decide (k ≤ i))
      = List.range' k m := by
  induction m with
  | zero =>
      simp only [Nat.add_zero, List.range'_zero]
      exact List.filter_eq_nil_iff.mpr fun a ha => by
        simpa using List.mem_range.mp ha
  | succ m ih =>
      rw [Nat.add_succ, List.range_succ, List.filter_append, ih,
        List.range'_concat]
      simp

/-! ## Claims -/

/-- C3, counterexample: `get_model` applied to the unrecognized name
`"svm"` does not raise `InvalidInput`; the `if`/`elif` chain has no `else`,
so the call returns Python's `None` (a value), contradicting the claim that
no value is returned. -/
theorem c3_counterexample : get_model "svm" 3 = Except.ok none := rfl

/-- C3 (amended): for every string other than the four recognized model
names, `get_model` returns `None` (no model and no error) instead of
failing with `InvalidInput`. -/
theorem c3_amended_returns_none (s : String) (n : ℕ) (h1 : s ≠ "logit")
    (h2 : s ≠ "random_forest") (h3 : s ≠ "gradient_boosting")
    (h4 : s ≠ "neural_net") : get_model s n = Except.ok none := by
  simp [get_model, h1, h2, h3, h4]

theorem c3_amended_returns_none_witness :
    "gbm" ≠ "logit" ∧ get_model "gbm" 7 = Except.ok none :=
  ⟨by decide, c3_amended_returns_none "gbm" 7 (by decide) (by decide)
    (by decide) (by decide)⟩

/-- C4, counterexample: with a training fire fraction exactly equal to
`resample_train_fire_pct` (1/5 here), `_check_resample` resamples (the
source keeps the indices only when the fraction is strictly greater), so
the result is not the unchanged index set the claim requires. -/
theorem c4_counterexample :
    meanFire [((0 : ℤ), true), (0, false), (0, false), (0, false), (0, false)]
        [0, 1, 2, 3, 4] = some (mkRat 1 5) ∧
    check_resample [((0 : ℤ), true), (0, false), (0, false), (0, false), (0, false)]
        (mkRat 1 5) "simple upsample" takeSampler [0, 1, 2, 3, 4]
      = [0, 1, 2, 3, 4, 0] ∧
    ([0, 1, 2, 3, 4, 0] : List ℕ) ≠ [0, 1, 2, 3, 4] := by
  refine ⟨by decide, by decide, by decide⟩

/-- C4 (amended): `_check_resample` returns the training index set
unchanged exactly when the fire fraction is strictly greater than
`resample_train_fire_pct`, and invokes resampling when the fraction is
less than or equal to it (the boundary case resamples, contrary to the
original claim). -/
theorem c4_amended_boundary (df : List (ℤ × Bool)) (pct : ℚ) (method : String)
    (sampler : List ℕ → ℕ → List ℕ) (train : List ℕ) (p : ℚ)
    (hm : meanFire df train = some p) :
    (pct < p → check_resample df pct method sampler train = train) ∧
    (p ≤ pct → check_resample df pct method sampler train
      = resample df method sampler train) := by
  unfold check_resample
  rw [hm]
  exact ⟨fun h => if_pos h, fun h => if_neg (not_lt.mpr h)⟩

theorem c4_amended_boundary_witness :
    meanFire [((0 : ℤ), true), (0, false)] [0, 1] = some (mkRat 1 2) ∧
    check_resample [((0 : ℤ), true), (0, false)] (mkRat 1 4) "downsample"
      takeSampler [0, 1] = [0, 1] :=
  ⟨by decide,
   (c4_amended_boundary [((0 : ℤ), true), (0, false)] (mkRat 1 4) "downsample"
      takeSampler [0, 1] (mkRat 1 2) (by decide)).1 (by decide)⟩

/-- C6: on the neural-network path of `predict_with_model`, the hard
prediction for a row is `true` exactly when the predicted positive-class
probability (column 1) is strictly greater than 0.50; on the probability
rows with positive-class entries 0.2, 0.6, 0.5, 0.51 the hard predictions
are `[false, true, false, true]`. -/
theorem c6_nn_threshold :
    (∀ (rows : List (List ℚ)) (i : ℕ), i < rows.length →
      ((nn_hard_predictions rows).getD i false = true ↔
        mkRat 1 2 < (rows.getD i []).getD 1 0)) ∧
    nn_hard_predictions
        [[mkRat 8 10, mkRat 2 10], [mkRat 4 10, mkRat 6 10],
         [mkRat 1 2, mkRat 1 2], [mkRat 49 100, mkRat 51 100]]
      = [false, true, false, true] := by
  constructor
  · intro rows i hi
    simp [nn_hard_predictions, List.getD_eq_getElem?_getD, List.getElem?_map,
      List.getElem?_eq_getElem hi]
  · decide

theorem c6_nn_threshold_witness :
    3 < ([[mkRat 8 10, mkRat 2 10], [mkRat 4 10, mkRat 6 10],
          [mkRat 1 2, mkRat 1 2], [mkRat 49 100, mkRat 51 100]] :
          List (List ℚ)).length ∧
    ((nn_hard_predictions
        [[mkRat 8 10, mkRat 2 10], [mkRat 4 10, mkRat 6 10],
         [mkRat 1 2, mkRat 1 2], [mkRat 49 100, mkRat 51 100]]).getD 3 false
        = true ↔
      mkRat 1 2 <
        (([[mkRat 8 10, mkRat 2 10], [mkRat 4 10, mkRat 6 10],
           [mkRat 1 2, mkRat 1 2], [mkRat 49 100, mkRat 51 100]] :
          List (List ℚ)).getD 3 []).getD 1 0) :=
  ⟨by decide, c6_nn_threshold.1 _ 3 (by decide)⟩

/-- C7: `get_grid_params` returns exactly the grids the specification
lists for `logit`, `random_forest` and `gradient_boosting`. -/
theorem c7_grid_params :
    get_grid_params "logit" = some specGridLogit ∧
    get_grid_params "random_forest" = some specGridRandomForest ∧
    get_grid_params "gradient_boosting" = some specGridGradientBoosting :=
  ⟨rfl, rfl, rfl⟩

/-- C9: `log_results` appends and never overwrites: after two successive
invocations against the same model name the log file holds the original
content followed by both entries, each entry carries the 100-character dash
line right after its timestamp, and every other file is unchanged. -/
theorem c9_log_append (fs : FileSys) (m st1 p1 sc1 st2 p2 sc2 : String)
    (cols1 cols2 : List String) :
    (log_results (log_results fs m st1 p1 cols1 sc1) m st2 p2 cols2 sc2)
        (logFilePath m)
      = fs (logFilePath m) ++ logEntry st1 m p1 cols1 sc1
          ++ logEntry st2 m p2 cols2 sc2 ∧
    dashLine.length = 100 ∧
    (∃ body1, logEntry st1 m p1 cols1 sc1
      = st1 ++ "\n" ++ dashLine ++ "\n" ++ body1) ∧
    (∃ body2, logEntry st2 m p2 cols2 sc2
      = st2 ++ "\n" ++ dashLine ++ "\n" ++ body2) ∧
    (∀ q : String, q ≠ logFilePath m →
      (log_results (log_results fs m st1 p1 cols1 sc1) m st2 p2 cols2 sc2) q
        = fs q) := by
  refine ⟨?_, by decide, ?_, ?_, ?_⟩
  · simp [log_results]
  · exact ⟨"Model Run: " ++ m ++ "\n\n" ++ "Params: " ++ p1 ++ "\n\n" ++
      "Features: " ++ String.intercalate ", " cols1 ++ "\n\n" ++
      "Scores: " ++ sc1 ++ "\n\n", by
        simp only [logEntry, String.append_assoc]⟩
  · exact ⟨"Model Run: " ++ m ++ "\n\n" ++ "Params: " ++ p2 ++ "\n\n" ++
      "Features: " ++ String.intercalate ", " cols2 ++ "\n\n" ++
      "Scores: " ++ sc2 ++ "\n\n", by
        simp only [logEntry, String.append_assoc]⟩
  · intro q hq
    simp [log_results, hq]

theorem c9_log_append_witness :
    (log_results (log_results (fun _ => "" : FileSys) "logit" "t1" "p1"
        ["colA", "colB"] "s1") "logit" "t2" "p2" ["colA"] "s2")
        (logFilePath "logit")
      = (fun _ => "" : FileSys) (logFilePath "logit")
          ++ logEntry "t1" "logit" "p1" ["colA", "colB"] "s1"
          ++ logEntry "t2" "logit" "p2" ["colA"] "s2" ∧
    (log_results (log_results (fun _ => "" : FileSys) "logit" "t1" "p1"
        ["colA", "colB"] "s1") "logit" "t2" "p2" ["colA"] "s2")
        "./modeling/logs/random_forest.txt" = "" :=
  ⟨(c9_log_append (fun _ => "") "logit" "t1" "p1" "s1" "t2" "p2" "s2"
      ["colA", "colB"] ["colA"]).1,
   (c9_log_append (fun _ => "") "logit" "t1" "p1" "s1" "t2" "p2" "s2"
      ["colA", "colB"] ["colA"]).2.2.2.2 "./modeling/logs/random_forest.txt"
      (by decide)⟩

/-- C5: the Design A `"downsample"` resampling step keeps every positive
training index, and the result has exactly as many positive rows as the
positive training set and exactly as many negative rows, the negatives
being a duplicate-free (without-replacement) draw; quantified over every
admissible draw of `np.random.choice(negatives, #positives,
replace=False)`. -/
theorem c5_downsample_counts (df : List (ℤ × Bool)) (train : List ℕ)
    (sampler : List ℕ → ℕ → List ℕ)
    (hsub : ∀ x ∈ sampler (negative_train_indices df train)
        (positive_train_indices df train).length,
        x ∈ negative_train_indices df train)
    (hlen : (sampler (negative_train_indices df train)
        (positive_train_indices df train).length).length
      = (positive_train_indices df train).length)
    (hnd : (sampler (negative_train_indices df train)
        (positive_train_indices df train).length).Nodup) :
    (∀ i ∈ positive_train_indices df train,
        i ∈ resample df "downsample" sampler train) ∧
    (resample df "downsample" sampler train).countP (fun i => isFire df i)
      = (positive_train_indices df train).length ∧
    (resample df "downsample" sampler train).countP (fun i => !(isFire df i))
      = (positive_train_indices df train).length ∧
    ((resample df "downsample" sampler train).filter
        (fun i => !(isFire df i))).Nodup := by
  have hres : resample df "downsample" sampler train
      = positive_train_indices df train
        ++ sampler (negative_train_indices df train)
            (positive_train_indices df train).length := rfl
  have hposf : ∀ x ∈ positive_train_indices df train, isFire df x = true :=
    fun x hx => isFire_of_mem_positive hx
  have hSf : ∀ x ∈ sampler (negative_train_indices df train)
      (positive_train_indices df train).length, isFire df x = false :=
    fun x hx => isFire_false_of_mem_negative (hsub x hx)
  rw [hres]
  refine ⟨fun i hi => List.mem_append_left _ hi, ?_, ?_, ?_⟩
  · rw [List.countP_append,
      List.countP_eq_length.mpr hposf,
      List.countP_eq_zero.mpr (fun a ha => by simp [hSf a ha])]
    omega
  · rw [List.countP_append,
      List.countP_eq_zero.mpr (fun a ha => by simp [hposf a ha]),
      List.countP_eq_length.mpr (fun a ha => by simp [hSf a ha]), hlen]
    omega
  · rw [List.filter_append,
      List.filter_eq_nil_iff.mpr (fun a ha => by simp [hposf a ha]),
      List.filter_eq_self.mpr (fun a ha => by simp [hSf a ha])]
    simpa using hnd

theorem fire_indices_dfC5 : fire_indices dfC5 = List.range 10 := by
  have h1 : fire_indices dfC5
      = (List.range 1010).filter (fun i => decide (i < 10)) := by
    unfold fire_indices whereIdx dfC5
    rw [List.length_map, List.length_range]
    exact List.filter_congr fun i hi => by
      rw [getD_map_range _ (List.mem_range.mp hi)]
  rw [h1]
  have h2 := filter_range_lt 10 1000
  norm_num at h2
  exact h2

theorem positive_dfC5 : positive_train_indices dfC5 trainC5 = List.range 10 := by
  unfold positive_train_indices trainC5
  rw [fire_indices_dfC5]
  refine List.filter_eq_self.mpr fun a ha => ?_
  have h10 := List.mem_range.mp ha
  simp only [List.mem_range, decide_eq_true_eq]
  omega

theorem negative_dfC5 :
    negative_train_indices dfC5 trainC5 = List.range' 10 1000 := by
  unfold negative_train_indices trainC5
  have h1 : (List.range 1010).filter (fun i => decide (i ∉ fire_indices dfC5))
      = (List.range 1010).filter (fun i => decide (10 ≤ i)) := by
    refine List.filter_congr fun i _ => ?_
    simp [fire_indices_dfC5, List.mem_range, Nat.not_lt]
  rw [h1]
  have h2 := filter_range_not_lt 10 1000
  norm_num at h2
  rw [h2]
  exact List.dedup_eq_self.mpr (List.nodup_range' _ _)

theorem c5_downsample_counts_witness :
    (positive_train_indices dfC5 trainC5).length = 10 ∧
    (negative_train_indices dfC5 trainC5).length = 1000 ∧
    (takeSampler (negative_train_indices dfC5 trainC5)
        (positive_train_indices dfC5 trainC5).length).length
      = (positive_train_indices dfC5 trainC5).length ∧
    (resample dfC5 "downsample" takeSampler trainC5).countP
        (fun i => isFire dfC5 i) = 10 ∧
    (resample dfC5 "downsample" takeSampler trainC5).countP
        (fun i => !(isFire dfC5 i)) = 10 := by
  have hpos10 : (positive_train_indices dfC5 trainC5).length = 10 := by
    rw [positive_dfC5, List.length_range]
  have hneg1000 : (negative_train_indices dfC5 trainC5).length = 1000 := by
    rw [negative_dfC5, List.length_range']
  have hsub : ∀ x ∈ takeSampler (negative_train_indices dfC5 trainC5)
      (positive_train_indices dfC5 trainC5).length,
      x ∈ negative_train_indices dfC5 trainC5 :=
    fun x hx => List.take_subset _ _ hx
  have hnd : (takeSampler (negative_train_indices dfC5 trainC5)
      (positive_train_indices dfC5 trainC5).length).Nodup :=
    List.Nodup.sublist (List.take_sublist _ _) (List.nodup_dedup _)
  have hlen : (takeSampler (negative_train_indices dfC5 trainC5)
      (positive_train_indices dfC5 trainC5).length).length
      = (positive_train_indices dfC5 trainC5).length := by
    show (List.take _ _).length = _
    rw [List.length_take, hpos10, hneg1000]
    decide
  obtain ⟨-, h2, h3, -⟩ :=
    c5_downsample_counts dfC5 trainC5 takeSampler hsub hlen hnd
  exact ⟨hpos10, hneg1000, hlen, h2.trans hpos10, h3.trans hpos10⟩

/-- C8: in Design B, constructing `BaseTimeFold` without an initial split
point sets the split point to `min(dates) + step_size` rebuilt at midnight
(its residue modulo a day is zero, so no two timestamps of the same day
fall on opposite sides of it), and a given initial split point is used
as-is. -/
theorem c8_init_split_point (dates : List ℤ) (step p : ℤ)
    (_hne : dates ≠ []) :
    (initB dates step (some p)).splitPoint = p ∧
    (initB dates step none).splitPoint = midnightOf (minD dates + step) ∧
    (initB dates step none).splitPoint % 86400 = 0 ∧
    (∀ d1 d2 : ℤ, d1 / 86400 = d2 / 86400 →
      (d1 < (initB dates step none).splitPoint ↔
        d2 < (initB dates step none).splitPoint)) := by
  refine ⟨rfl, rfl, ?_, ?_⟩
  · show midnightOf (minD dates + step) % 86400 = 0
    unfold midnightOf
    exact Int.mul_emod_left _ _
  · intro d1 d2 hdd
    show d1 < midnightOf (minD dates + step) ↔
      d2 < midnightOf (minD dates + step)
    unfold midnightOf
    generalize daysFromCivil _ _ _ = K
    omega

theorem c8_init_split_point_witness :
    ([mkDT 2014 6 1 7 30 0] : List ℤ) ≠ [] ∧
    (initB [mkDT 2014 6 1 7 30 0] 86400 (some 12345)).splitPoint = 12345 ∧
    (initB [mkDT 2014 6 1 7 30 0] 86400 none).splitPoint % 86400 = 0 ∧
    (initB [mkDT 2014 6 1 7 30 0] 86400 none).splitPoint
      = mkDT 2014 6 2 0 0 0 :=
  ⟨by decide,
   (c8_init_split_point [mkDT 2014 6 1 7 30 0] 86400 12345 (by decide)).1,
   (c8_init_split_point [mkDT 2014 6 1 7 30 0] 86400 12345 (by decide)).2.2.1,
   by decide⟩

/-- C10: every fold yielded by the Design B `SequentialTimeFold` partitions
the row indices of the dates sequence: each valid row index lies in the
train array exactly when it does not lie in the test array, and both
arrays contain only valid row indices. -/
theorem c10_bseq_partition (st : StateB) (tr te : List ℕ) (st' : StateB)
    (h : nextBSeq st = some ((tr, te), st')) :
    (∀ i : ℕ, i < st.dates.length → (i ∈ tr ↔ i ∉ te)) ∧
    (∀ i ∈ tr, i < st.dates.length) ∧
    (∀ i ∈ te, i < st.dates.length) := by
  simp only [nextBSeq] at h
  split at h
  · simp only [Option.some.injEq, Prod.mk.injEq] at h
    obtain ⟨⟨htr, hte⟩, -⟩ := h
    subst htr
    subst hte
    refine ⟨?_, ?_, ?_⟩
    · intro i hi
      simp only [mem_whereIdx, decide_eq_true_eq, hi, true_and, not_and,
        not_le, not_lt]
    · intro i hi
      exact (mem_whereIdx.mp hi).1
    · intro i hi
      exact (mem_whereIdx.mp hi).1
  · exact absurd h (by simp)

theorem c10_bseq_partition_witness :
    nextBSeq
        { dates := [0, 100], stepSize := 10, splitPoint := 50,
          initSplitPoint := 50, testIndices := [3, 4], nFolds := 0 }
      = some (([0], [1]),
        { dates := [0, 100], stepSize := 10, splitPoint := 60,
          initSplitPoint := 50, testIndices := [1], nFolds := 1 }) ∧
    ((1 : ℕ) ∈ ([0] : List ℕ) ↔ (1 : ℕ) ∉ ([1] : List ℕ)) :=
  ⟨by decide,
   (c10_bseq_partition
      { dates := [0, 100], stepSize := 10, splitPoint := 50,
        initSplitPoint := 50, testIndices := [3, 4], nFolds := 0 }
      [0] [1]
      { dates := [0, 100], stepSize := 10, splitPoint := 60,
        initSplitPoint := 50, testIndices := [1], nFolds := 1 }
      (by decide)).1 1 (by decide)⟩

theorem nextASeq_disjoint :
    ∀ (fuel : ℕ) (st : StateASeq) (tr te : List ℕ) (st' : StateASeq),
      nextASeq fuel st = some (some ((tr, te), st')) → ∀ i ∈ tr, i ∉ te := by
  intro fuel
  induction fuel with
  | zero =>
      intro st tr te st' h
      simp [nextASeq] at h
  | succ n ih =>
      intro st tr te st' h
      simp only [nextASeq] at h
      split at h
      · exact ih _ _ _ _ h
      · split at h
        · simp only [Option.some.injEq, Prod.mk.injEq] at h
          obtain ⟨⟨htr, hte⟩, -⟩ := h
          subst htr
          subst hte
          intro i hi hit
          have h1 := (mem_whereIdx.mp hi).2
          have h2 := (mem_whereIdx.mp hit).2
          simp only [decide_eq_true_eq] at h1 h2
          omega
        · simp at h

theorem nextBSeq_disjoint (st : StateB) (tr te : List ℕ) (st' : StateB)
    (h : nextBSeq st = some ((tr, te), st')) : ∀ i ∈ tr, i ∉ te := by
  simp only [nextBSeq] at h
  split at h
  · simp only [Option.some.injEq, Prod.mk.injEq] at h
    obtain ⟨⟨htr, hte⟩, -⟩ := h
    subst htr
    subst hte
    intro i hi hit
    have h1 := (mem_whereIdx.mp hi).2
    have h2 := (mem_whereIdx.mp hit).2
    simp only [decide_eq_true_eq] at h1 h2
    omega
  · exact absurd h (by simp)

theorem grabB_fst_lt (st : StateBStrat) (y : ℤ) {i : ℕ}
    (h : i ∈ (grabIndicesB st y).1) :
    st.dates.getD i default < st.splitPoint := by
  simp only [grabIndicesB] at h
  have h2 := (mem_whereIdx.mp h).2
  simp only [decide_eq_true_eq] at h2
  exact h2.2.2

theorem grabB_snd_ge (st : StateBStrat) (y : ℤ) {i : ℕ}
    (h : i ∈ (grabIndicesB st y).2) :
    st.splitPoint ≤ st.dates.getD i default := by
  simp only [grabIndicesB] at h
  have h2 := (mem_whereIdx.mp h).2
  simp only [decide_eq_true_eq] at h2
  exact h2.2.2

theorem fold_grabB_train_lt (st : StateBStrat) :
    ∀ (ys : List ℤ) (acc : List ℕ × List ℕ),
      (∀ j ∈ acc.1, st.dates.getD j default < st.splitPoint) →
      ∀ i ∈ (ys.foldl (fun a y => ((grabIndicesB st y).1 ++ a.1,
          (grabIndicesB st y).2 ++ a.2)) acc).1,
        st.dates.getD i default < st.splitPoint := by
  intro ys
  induction ys with
  | nil => intro acc hacc; simpa using hacc
  | cons y ys ih =>
      intro acc hacc
      refine ih _ ?_
      intro j hj
      rcases List.mem_append.mp hj with h1 | h2
      · exact grabB_fst_lt st y h1
      · exact hacc j h2

theorem fold_grabB_test_ge (st : StateBStrat) :
    ∀ (ys : List ℤ) (acc : List ℕ × List ℕ),
      (∀ j ∈ acc.2, st.splitPoint ≤ st.dates.getD j default) →
      ∀ i ∈ (ys.foldl (fun a y => ((grabIndicesB st y).1 ++ a.1,
          (grabIndicesB st y).2 ++ a.2)) acc).2,
        st.splitPoint ≤ st.dates.getD i default := by
  intro ys
  induction ys with
  | nil => intro acc hacc; simpa using hacc
  | cons y ys ih =>
      intro acc hacc
      refine ih _ ?_
      intro j hj
      rcases List.mem_append.mp hj with h1 | h2
      · exact grabB_snd_ge st y h1
      · exact hacc j h2

theorem nextBStrat_disjoint (st : StateBStrat) (tr te : List ℕ)
    (st' : StateBStrat) (h : nextBStrat st = some ((tr, te), st')) :
    ∀ i ∈ tr, i ∉ te := by
  simp only [nextBStrat] at h
  split at h
  · simp only [Option.some.injEq, Prod.mk.injEq] at h
    obtain ⟨hpair, -⟩ := h
    intro i hi hit
    have htr : tr = (st.yearsList.foldl (fun a y => ((grabIndicesB st y).1 ++ a.1,
        (grabIndicesB st y).2 ++ a.2)) ([], [])).1 := by rw [hpair]
    have hte : te = (st.yearsList.foldl (fun a y => ((grabIndicesB st y).1 ++ a.1,
        (grabIndicesB st y).2 ++ a.2)) ([], [])).2 := by rw [hpair]
    rw [htr] at hi
    rw [hte] at hit
    have h1 := fold_grabB_train_lt st st.yearsList ([], []) (by simp) i hi
    have h2 := fold_grabB_test_ge st st.yearsList ([], []) (by simp) i hit
    omega
  · exact absurd h (by simp)

/-- C1 (amended): within every yielded fold, the train and test index
arrays are disjoint for `SequentialTimeFold` in both designs and for
`StratifiedTimeFold` in Design B; the claim fails for Design A's
`StratifiedTimeFold` (see the counterexample), whose year-substituted
training windows can reach into the test slice. -/
theorem c1_amended_disjoint :
    (∀ (fuel : ℕ) (st : StateASeq) (tr te : List ℕ) (st' : StateASeq),
      nextASeq fuel st = some (some ((tr, te), st')) → ∀ i ∈ tr, i ∉ te) ∧
    (∀ (st : StateB) (tr te : List ℕ) (st' : StateB),
      nextBSeq st = some ((tr, te), st') → ∀ i ∈ tr, i ∉ te) ∧
    (∀ (st : StateBStrat) (tr te : List ℕ) (st' : StateBStrat),
      nextBStrat st = some ((tr, te), st') → ∀ i ∈ tr, i ∉ te) :=
  ⟨nextASeq_disjoint,
   fun st tr te st' h => nextBSeq_disjoint st tr te st' h,
   fun st tr te st' h => nextBStrat_disjoint st tr te st' h⟩

theorem c1_amended_disjoint_witness :
    nextASeq 1 ⟨[((0 : ℤ), true), (86400, false)], 86400, 5, 0, 86400⟩
      = some (some (([0], [1]),
        ⟨[((0 : ℤ), true), (86400, false)], 86400, 5, 1, 0⟩)) ∧
    ((0 : ℕ) ∈ ([0] : List ℕ) → (0 : ℕ) ∉ ([1] : List ℕ)) ∧
    nextBSeq ⟨[0, 100], 10, 40, 40, [3, 4], 0⟩
      = some (([0], [1]), ⟨[0, 100], 10, 50, 40, [1], 1⟩) ∧
    ((0 : ℕ) ∈ ([0] : List ℕ) → (0 : ℕ) ∉ ([1] : List ℕ)) ∧
    nextBStrat ⟨[mkDT 1970 3 1 12 0 0, mkDT 1971 3 1 12 0 0], 86400,
        mkDT 1971 3 1 6 0 0, mkDT 1971 3 1 6 0 0, [3, 4], 0, [1970, 1971]⟩
      = some (([0], [1]),
        ⟨[mkDT 1970 3 1 12 0 0, mkDT 1971 3 1 12 0 0], 86400,
         mkDT 1971 3 1 6 0 0 + 86400, mkDT 1971 3 1 6 0 0, [1], 1,
         [1970, 1971]⟩) ∧
    ((0 : ℕ) ∈ ([0] : List ℕ) → (0 : ℕ) ∉ ([1] : List ℕ)) :=
  ⟨by decide,
   c1_amended_disjoint.1 1
     ⟨[((0 : ℤ), true), (86400, false)], 86400, 5, 0, 86400⟩ [0] [1]
     ⟨[((0 : ℤ), true), (86400, false)], 86400, 5, 1, 0⟩ (by decide) 0,
   by decide,
   c1_amended_disjoint.2.1 ⟨[0, 100], 10, 40, 40, [3, 4], 0⟩ [0] [1]
     ⟨[0, 100], 10, 50, 40, [1], 1⟩ (by decide) 0,
   by decide,
   c1_amended_disjoint.2.2
     ⟨[mkDT 1970 3 1 12 0 0, mkDT 1971 3 1 12 0 0], 86400,
      mkDT 1971 3 1 6 0 0, mkDT 1971 3 1 6 0 0, [3, 4], 0, [1970, 1971]⟩
     [0] [1]
     ⟨[mkDT 1970 3 1 12 0 0, mkDT 1971 3 1 12 0 0], 86400,
      mkDT 1971 3 1 6 0 0 + 86400, mkDT 1971 3 1 6 0 0, [1], 1,
      [1970, 1971]⟩ (by decide) 0⟩

/-- C1, counterexample: a Design A `StratifiedTimeFold` fold whose train
and test arrays share row index 1.  Rows: 2014-06-01 (no fire) and
2015-06-01 (fire); `test_set_date` 2014-06-02, `step_size` 400 days,
`days_back` 3.  The test slice `[2014-06-01, 2014-06-01 + 400 days)`
contains both rows, while the year-2015 training window
`[2015-05-30, 2015-06-02)` contains the 2015 row, so index 1 is in both
arrays of the yielded fold. -/
theorem c1_counterexample :
    (nextAStrat takeSampler 1
        (initAStrat
          [(mkDT 2014 6 1 0 0 0, false), (mkDT 2015 6 1 0 0 0, true)]
          (400 * 86400) 10 (mkDT 2014 6 2 0 0 0) 3 (mkRat 1 20) (mkRat 1 5)
          "downsample")).map (Option.map Prod.fst)
      = some (some ([1], [0, 1])) ∧
    (1 : ℕ) ∈ ([1] : List ℕ) ∧ (1 : ℕ) ∈ ([0, 1] : List ℕ) :=
  ⟨by decide, by decide, by decide⟩

theorem nextASeq_gap_none :
    ∀ (fuel : ℕ) (st : StateASeq) (d0 : ℤ) (b : Bool),
      st.df = [(d0, b)] → 0 < st.stepSize → st.testDate + 86400 ≤ d0 →
      nextASeq fuel st = none := by
  intro fuel
  induction fuel with
  | zero =>
      intro st d0 b hdf hstep hgap
      rfl
  | succ n ih =>
      intro st d0 b hdf hstep hgap
      have hdates : st.df.map Prod.fst = [d0] := by rw [hdf]; rfl
      have htest : whereIdx
          (fun d => decide (st.testDate ≤ d ∧ d < st.testDate + 86400))
          [d0] = [] := by
        unfold whereIdx
        refine List.filter_eq_nil_iff.mpr ?_
        intro a ha
        simp only [List.length_cons, List.length_nil, List.mem_range] at ha
        interval_cases a
        simp only [List.getD_cons_zero, decide_eq_true_eq, not_and, not_lt]
        omega
      simp only [nextASeq, hdates, htest, List.length_nil, if_pos]
      exact ih _ d0 b (by simp [hdf]) hstep (by simp; omega)

/-- C2, code bug: Design A's `SequentialTimeFold.next` does not terminate
on every call.  With a single observation on 2014-06-01 and
`test_set_date` also 2014-06-01 (step one day), the initial test boundary
is 2014-05-31 and every probed window `[boundary, boundary + 1 day)` lies
strictly below the observation, so the `while` loop never finds a
non-empty test slice and never exits: for every fuel bound the loop is
still running.  (Design B's `next` is loop-free, so the slip is specific
to Design A.) -/
theorem c2_nextA_diverges :
    ∀ fuel : ℕ,
      nextASeq fuel
        (initASeq [(mkDT 2014 6 1 0 0 0, true)] 86400 10
          (mkDT 2014 6 1 0 0 0)) = none :=
  fun fuel =>
    nextASeq_gap_none fuel _ (mkDT 2014 6 1 0 0 0) true rfl (by decide)
      (by decide)

end ForestFires
